/-
Verification of the LGA_Console departure-rule engine and its auxiliary
logic (src/app.js and the superseded/extended copy in src/unnamed/part_000).

The JavaScript source is shallowly embedded:
* JS strings are Lean `String`s; the handful of string primitives the code
  uses (`trim`, `toUpperCase`, `includes`, `startsWith`, `split`,
  whitespace squashing) are re-implemented here by structural recursion on
  the underlying character lists, restricted to ASCII case mapping and
  ASCII whitespace, so that every definition evaluates by kernel reduction.
* JS numbers are modelled exactly, as unreduced fractions `JsNum`
  (integer numerator, positive natural denominator); every number the
  program manipulates is produced by parsing decimal text or by exact
  arithmetic on such values, so rational arithmetic is faithful.  JS `NaN`
  is modelled by `Option` (`none` = NaN / missing).
* `Array.prototype.sort` with a comparator (required stable by the JS
  specification) is modelled by Mathlib's stable `List.insertionSort`.
-/
import Mathlib

namespace LGA

/-! ### ASCII string primitives (models of the JS built-ins used) -/

/-- ASCII whitespace, the fragment of JS `\s` exercised by this program. -/
def jsIsWs (c : Char) : Bool :=
  c = ' ' || c = '\t' || c = '\n' || c = '\r'

/-- Model of `String.prototype.trim` (ASCII whitespace). -/
def jsTrim (s : String) : String :=
  ⟨((s.data.dropWhile jsIsWs).reverse.dropWhile jsIsWs).reverse⟩

/-- Model of `String.prototype.toUpperCase` (ASCII letters). -/
def jsUpper (s : String) : String :=
  ⟨s.data.map Char.toUpper⟩

/-- `listStarts s p` : the character list `p` is an initial segment of `s`.
Model of `String.prototype.startsWith` at the list level. -/
def listStarts : List Char → List Char → Bool
  | _, [] => true
  | [], _ :: _ => false
  | a :: s, b :: p => a = b && listStarts s p

/-- `listHasSeg seg s` : `seg` occurs contiguously inside `s`.
Model of `String.prototype.includes` at the list level. -/
def listHasSeg (seg : List Char) : List Char → Bool
  | [] => listStarts [] seg
  | c :: t => listStarts (c :: t) seg || listHasSeg seg t

/-- Model of `s.includes(sub)`. -/
def jsIncludes (s sub : String) : Bool :=
  listHasSeg sub.data s.data

/-- Model of `s.startsWith(p)`. -/
def jsStartsWith (s p : String) : Bool :=
  listStarts s.data p.data

/-- Split a character list at every character satisfying `p`, keeping empty
segments, as JS `split` does. -/
def splitAnyAux (p : Char → Bool) (acc : List Char) : List Char → List (List Char)
  | [] => [acc.reverse]
  | c :: r => if p c then acc.reverse :: splitAnyAux p [] r else splitAnyAux p (c :: acc) r

/-- Model of `String.prototype.split` on a class of single characters. -/
def jsSplitAny (p : Char → Bool) (s : String) : List String :=
  (splitAnyAux p [] s.data).map (fun cs => ⟨cs⟩)

/-- Model of `text.replace(/\r/g, "")`. -/
def removeCR (s : String) : String :=
  ⟨s.data.filter (fun c => c ≠ '\r')⟩

/-- Replace every maximal run of whitespace by a single `'.'`:
model of `p.replace(/\s+/g, ".")`. -/
def squashWsAux : Bool → List Char → List Char
  | _, [] => []
  | prevWs, c :: r =>
    if jsIsWs c then
      if prevWs then squashWsAux true r else '.' :: squashWsAux true r
    else c :: squashWsAux false r

/-- Model of `p.replace(/\s+/g, ".")`. -/
def squashWsToDot (s : String) : String :=
  ⟨squashWsAux false s.data⟩

/-- Byte-wise (code-point) comparison of character lists; model of the
alphabetical `localeCompare` ordering used for navaid names. -/
def charListLe : List Char → List Char → Bool
  | [], _ => true
  | _ :: _, [] => false
  | a :: s, b :: t =>
    if a.toNat < b.toNat then true
    else if b.toNat < a.toNat then false
    else charListLe s t

/-- Alphabetical string order (model of `localeCompare(_) ≤ 0`). -/
def strLe (a b : String) : Bool :=
  charListLe a.data b.data

/-! ### Exact model of JS numbers

A JS number produced by this program is an exact fraction: an integer
numerator with a positive natural denominator (the fractions are not
reduced; all predicates compare by cross-multiplication, which is the
rational order because denominators are positive).  `NaN` and "no value"
are modelled by `Option JsNum = none`. -/

structure JsNum where
  num : Int
  den : Nat
  den_pos : 0 < den

instance : DecidableEq JsNum := fun a b =>
  if h1 : a.num = b.num then
    if h2 : a.den = b.den then isTrue (by cases a; cases b; simp_all)
    else isFalse (by intro h; cases h; exact h2 rfl)
  else isFalse (by intro h; cases h; exact h1 rfl)

/-- The integer `n` as a JS number. -/
def JsNum.ofInt (n : Int) : JsNum := ⟨n, 1, Nat.one_pos⟩

/-- `q < k` for a natural bound `k`. -/
def JsNum.ltNat (q : JsNum) (k : Nat) : Bool :=
  decide (q.num < (k : Int) * (q.den : Int))

/-- `q ≤ k` for a natural bound `k`. -/
def JsNum.leNat (q : JsNum) (k : Nat) : Bool :=
  decide (q.num ≤ (k : Int) * (q.den : Int))

/-- `k ≤ q` for a natural bound `k`. -/
def JsNum.geNat (q : JsNum) (k : Nat) : Bool :=
  decide ((k : Int) * (q.den : Int) ≤ q.num)

/-- JS `%` (remainder truncated towards zero) by a positive natural
modulus, followed by nothing else: `q - m * trunc(q / m)`. -/
def JsNum.jsMod (q : JsNum) (m : Nat) : JsNum :=
  let M : Int := (m : Int) * (q.den : Int)
  ⟨q.num - M * (Int.tdiv q.num M), q.den, q.den_pos⟩

/-- `q + k` for a natural `k`. -/
def JsNum.addNat (q : JsNum) (k : Nat) : JsNum :=
  ⟨q.num + (k : Int) * (q.den : Int), q.den, q.den_pos⟩

/-! ### Model of `Number(string)` on decimal literals

The program feeds `Number` with trimmed text fields; the model covers the
decimal literals (optional sign, integer part, optional fraction part)
that the data uses.  As in JS, an empty or all-whitespace string parses
to `0`, and anything unparseable is `NaN` (`none`). -/

def takeDigits : List Char → List Char × List Char
  | [] => ([], [])
  | c :: r =>
    if c.isDigit then
      let p := takeDigits r
      (c :: p.1, p.2)
    else ([], c :: r)

def takeWs : List Char → List Char × List Char
  | [] => ([], [])
  | c :: r =>
    if jsIsWs c then
      let p := takeWs r
      (c :: p.1, p.2)
    else ([], c :: r)

def digitsToNat (cs : List Char) : Nat :=
  cs.foldl (fun acc c => 10 * acc + (c.toNat - '0'.toNat)) 0

def jsParseDec (pos : Bool) (cs : List Char) : Option JsNum :=
  let p := takeDigits cs
  match h : p.2 with
  | [] =>
    if p.1 = [] then none
    else some ⟨(if pos then 1 else -1) * (digitsToNat p.1 : Int), 1, Nat.one_pos⟩
  | '.' :: r2 =>
    let q := takeDigits r2
    if q.2 = [] ∧ (p.1 ≠ [] ∨ q.1 ≠ []) then
      some ⟨(if pos then 1 else -1) *
              ((digitsToNat p.1 * 10 ^ q.1.length + digitsToNat q.1 : Nat) : Int),
            10 ^ q.1.length, Nat.pos_pow_of_pos _ (by decide)⟩
    else none
  | _ => none

/-- Model of JS `Number(s)` restricted to plain decimal literals
(`none` = `NaN`). -/
def jsNumber? (s : String) : Option JsNum :=
  let t := jsTrim s
  if t = "" then some (JsNum.ofInt 0)
  else
    match t.data with
    | '+' :: r => jsParseDec true r
    | '-' :: r => jsParseDec false r
    | r => jsParseDec true r

/-- Model of `toNumberOrNaN` from the source: `Number(norm(v))` guarded by
`Number.isFinite`. -/
def toNumberOrNaN (v : String) : Option JsNum :=
  jsNumber? (jsTrim v)

/-! ### The matching predicates (`matchAirspace`, `matchField`) -/

/-- The characters on which an airspace requirement is split. -/
def airspaceDelim (c : Char) : Bool :=
  c = '+' || c = ',' || c = '&'

/-- The required tokens of an airspace rule value: the source splits the
uppercased value on `/\s*\+\s*|\s*,\s*|\s*&\s*/`, trims every piece and
drops the empty ones.  Splitting on the bare delimiter characters and
trimming each piece afterwards produces the same list, because the only
whitespace the regex absorbs is adjacent to a delimiter and is removed
here by the per-piece trim. -/
def reqTokens (r : String) : List String :=
  ((jsSplitAny airspaceDelim (jsUpper r)).map jsTrim).filter (fun s => s ≠ "")

/-- Model of `matchAirspace(ruleVal, inputVal)` from the source. -/
def matchAirspace (ruleVal inputVal : String) : Bool :=
  let r := jsTrim ruleVal
  let v := jsTrim inputVal
  if r = "*" || r = "" then true
  else if v = "" then false
  else (reqTokens r).all (fun part => jsIncludes (jsUpper v) part)

/-- Model of `matchField(ruleVal, inputVal)` from the source. -/
def matchField (ruleVal inputVal : String) : Bool :=
  let r := jsTrim ruleVal
  let v := jsTrim inputVal
  if r = "*" || r = "" then true
  else if v = "" then false
  else jsUpper r = jsUpper v

/-! ### The departure-rule table and `pickDepartureRule` -/

/-- The canonical input vector the rules are matched against. -/
structure RuleInputs where
  DEP_RWY : String
  LGA_LDG_CLASS : String
  LGA_AIRSPACE : String
  JFK_AIRSPACE : String
  EXIT_GATE_DIR : String
  EXIT_FIX : String
  ACFT_TYPE : String
deriving DecidableEq

/-- One row of the departure-rule table.  The `PRIORITY` column holds a
number (`Number(r.PRIORITY)` in the source's comparator); it is modelled
as an integer field. -/
structure DepRule where
  DEP_RWY : String
  LGA_AIRSPACE_REQ : String
  JFK_AIRSPACE_REQ : String
  EXIT_GATE_DIR : String
  EXIT_FIX_REQ : String
  ACFT_TYPE : String
  LGA_LDG_CLASS_REQ : String
  OUTPUT : String
  NOTES : String
  PRIORITY : Int
deriving DecidableEq

/-- The seven-predicate filter body of `pickDepartureRule`, in source
order. -/
def ruleMatches (r : DepRule) (i : RuleInputs) : Bool :=
  matchField r.DEP_RWY i.DEP_RWY &&
  matchAirspace r.LGA_AIRSPACE_REQ i.LGA_AIRSPACE &&
  matchAirspace r.JFK_AIRSPACE_REQ i.JFK_AIRSPACE &&
  matchField r.EXIT_GATE_DIR i.EXIT_GATE_DIR &&
  matchField r.EXIT_FIX_REQ i.EXIT_FIX &&
  matchField r.ACFT_TYPE i.ACFT_TYPE &&
  matchField r.LGA_LDG_CLASS_REQ i.LGA_LDG_CLASS

/-- The sort order of the source's comparator
`(a, b) => Number(a.PRIORITY) - Number(b.PRIORITY)`. -/
def ruleLe : DepRule → DepRule → Prop := fun a b => a.PRIORITY ≤ b.PRIORITY

instance : DecidableRel ruleLe := fun a b => Int.decLe a.PRIORITY b.PRIORITY

instance : IsTotal DepRule ruleLe := ⟨fun a b => Int.le_total a.PRIORITY b.PRIORITY⟩

instance : IsTrans DepRule ruleLe := ⟨fun _ _ _ => Int.le_trans⟩

/-- Model of `pickDepartureRule(inputs)`: filter the table by the seven
predicates, stably sort the survivors by ascending priority, return the
first (or `null` when there are none).  The JS stable in-place sort is
modelled by the stable `List.insertionSort`. -/
def pickDepartureRule (rows : List DepRule) (i : RuleInputs) : Option DepRule :=
  if (rows.filter (fun r => ruleMatches r i)).isEmpty then none
  else (List.insertionSort ruleLe (rows.filter (fun r => ruleMatches r i))).head?

/-! ### The head of a stable sort is the first minimum -/

/-- The first element of `l` that is minimal for `r` (keeping the earlier
element on ties). -/
def firstMin (r : α → α → Prop) [DecidableRel r] : List α → Option α
  | [] => none
  | a :: l =>
    some (match firstMin r l with
          | none => a
          | some m => if r a m then a else m)

theorem firstMin_eq_none {r : α → α → Prop} [DecidableRel r] {l : List α} :
    firstMin r l = none ↔ l = [] := by
  cases l <;> simp [firstMin]

theorem head?_orderedInsert (r : α → α → Prop) [DecidableRel r] (a : α) (l : List α) :
    (List.orderedInsert r a l).head? =
      some (match l.head? with
            | none => a
            | some b => if r a b then a else b) := by
  cases l with
  | nil => rfl
  | cons b t =>
    simp only [List.orderedInsert, List.head?_cons]
    split <;> simp

theorem head?_insertionSort (r : α → α → Prop) [DecidableRel r] :
    ∀ l : List α, (List.insertionSort r l).head? = firstMin r l
  | [] => rfl
  | a :: l => by
    rw [List.insertionSort, head?_orderedInsert, head?_insertionSort r l, firstMin]

theorem firstMin_spec (r : α → α → Prop) [DecidableRel r] [IsTotal α r] [IsTrans α r] :
    ∀ (l : List α) (m : α), firstMin r l = some m →
      m ∈ l ∧ (∀ x ∈ l, r m x) ∧ l.find? (fun x => decide (r x m)) = some m
  | [], m, h => by simp [firstMin] at h
  | a :: l, m, h => by
    have rrefl : ∀ x : α, r x x := fun x => (IsTotal.total (r := r) x x).elim id id
    rw [firstMin] at h
    cases hfm : firstMin r l with
    | none =>
      have hl : l = [] := firstMin_eq_none.mp hfm
      subst hl
      rw [hfm] at h
      have ha : a = m := Option.some.inj h
      subst ha
      refine ⟨List.mem_cons_self _ _, ?_, ?_⟩
      · intro x hx
        rcases List.mem_singleton.mp hx with rfl
        exact rrefl _
      · simp [List.find?_cons, rrefl a]
    | some m0 =>
      rw [hfm] at h
      have h2 : (if r a m0 then a else m0) = m := Option.some.inj h
      obtain ⟨hm0mem, hm0min, hm0find⟩ := firstMin_spec r l m0 hfm
      by_cases hr : r a m0
      · rw [if_pos hr] at h2
        subst h2
        refine ⟨List.mem_cons_self _ _, ?_, ?_⟩
        · intro x hx
          rcases List.mem_cons.mp hx with rfl | hx
          · exact rrefl _
          · exact IsTrans.trans a m0 x hr (hm0min x hx)
        · simp [List.find?_cons, rrefl a]
      · rw [if_neg hr] at h2
        subst h2
        have ham : r m0 a := (IsTotal.total (r := r) a m0).resolve_left hr
        refine ⟨List.mem_cons_of_mem _ hm0mem, ?_, ?_⟩
        · intro x hx
          rcases List.mem_cons.mp hx with rfl | hx
          · exact ham
          · exact hm0min x hx
        · rw [List.find?_cons]
          have hd : decide (r a m0) = false := by simp [hr]
          rw [hd]
          exact hm0find

theorem pickDepartureRule_eq_firstMin (rows : List DepRule) (i : RuleInputs) :
    pickDepartureRule rows i = firstMin ruleLe (rows.filter (fun r => ruleMatches r i)) := by
  unfold pickDepartureRule
  by_cases h : (rows.filter (fun r => ruleMatches r i)).isEmpty
  · rw [if_pos h]
    rw [List.isEmpty_iff] at h
    rw [h]
    rfl
  · rw [if_neg h, head?_insertionSort]

/-- Wildcard rule values accept every input in `matchField` (shared
helper). -/
theorem matchField_wild (ruleVal inputVal : String)
    (h : jsTrim ruleVal = "*" ∨ jsTrim ruleVal = "") :
    matchField ruleVal inputVal = true := by
  rcases h with h | h <;> simp [matchField, h]

/-- `pickDepartureRule` returns `none` exactly when no row satisfies the
seven predicates (shared helper). -/
theorem pick_none_iff (rows : List DepRule) (i : RuleInputs) :
    pickDepartureRule rows i = none ↔ rows.filter (fun r => ruleMatches r i) = [] := by
  rw [pickDepartureRule_eq_firstMin, firstMin_eq_none]

/-- A returned rule is a satisfying row of minimal priority, earliest
among the satisfying rows of that priority (shared helper). -/
theorem pick_some_spec (rows : List DepRule) (i : RuleInputs) (r : DepRule)
    (hr : pickDepartureRule rows i = some r) :
    r ∈ rows.filter (fun x => ruleMatches x i) ∧
    (∀ x ∈ rows.filter (fun x => ruleMatches x i), r.PRIORITY ≤ x.PRIORITY) ∧
    (rows.filter (fun x => ruleMatches x i)).find?
        (fun x => decide (x.PRIORITY ≤ r.PRIORITY)) = some r := by
  rw [pickDepartureRule_eq_firstMin] at hr
  exact firstMin_spec ruleLe _ r hr

/-! ### Claims about the matching engine -/

/-- C1: for every rule table and canonical input vector,
`pickDepartureRule` filters the table to the rows satisfying all seven
field predicates; if no row satisfies them it returns `none` (the
first-class "no rule found" outcome), otherwise it returns a satisfying
rule of minimal numeric priority, and among the satisfying rules of that
priority the one occurring earliest in the original table order (the
`find?` conjunct); repeated invocation returns the identical result. -/
theorem pickDepartureRule_correct (rows : List DepRule) (i : RuleInputs) :
    (pickDepartureRule rows i = none ↔ rows.filter (fun r => ruleMatches r i) = []) ∧
    (∀ r, pickDepartureRule rows i = some r →
      r ∈ rows.filter (fun x => ruleMatches x i) ∧
      ruleMatches r i = true ∧
      (∀ x ∈ rows.filter (fun x => ruleMatches x i), r.PRIORITY ≤ x.PRIORITY) ∧
      (rows.filter (fun x => ruleMatches x i)).find?
          (fun x => decide (x.PRIORITY ≤ r.PRIORITY)) = some r) ∧
    pickDepartureRule rows i = pickDepartureRule rows i := by
  refine ⟨pick_none_iff rows i, ?_, rfl⟩
  intro r hr
  obtain ⟨hmem, hmin, hfind⟩ := pick_some_spec rows i r hr
  exact ⟨hmem, (List.mem_filter.mp hmem).2, hmin, hfind⟩

/-- A table and input vector exercising `pickDepartureRule_correct`:
two satisfying rules, the lower-priority one second in table order. -/
def w1RuleHigh : DepRule := ⟨"4", "N", "*", "N", "*", "*", "*", "LGA7 MASPETH", "", 2⟩

def w1RuleLow : DepRule := ⟨"*", "", "", "", "", "*", "", "LOW", "", 1⟩

def w1Inputs : RuleInputs := ⟨"4", "A", "N+S", "NE", "N", "WHITE", "B738"⟩

theorem pickDepartureRule_correct_witness :
    w1RuleLow ∈ [w1RuleHigh, w1RuleLow].filter (fun x => ruleMatches x w1Inputs) ∧
    ruleMatches w1RuleLow w1Inputs = true ∧
    (∀ x ∈ [w1RuleHigh, w1RuleLow].filter (fun x => ruleMatches x w1Inputs),
      w1RuleLow.PRIORITY ≤ x.PRIORITY) ∧
    ([w1RuleHigh, w1RuleLow].filter (fun x => ruleMatches x w1Inputs)).find?
        (fun x => decide (x.PRIORITY ≤ w1RuleLow.PRIORITY)) = some w1RuleLow :=
  (pickDepartureRule_correct [w1RuleHigh, w1RuleLow] w1Inputs).2.1 w1RuleLow (by decide)

/-- C2: `matchAirspace` accepts wildcard rule values, rejects empty input
for non-wildcard rule values, and otherwise requires every token obtained
by splitting the rule value on `+`, `,`, `&` (with surrounding whitespace
absorbed and both sides uppercased) to occur as a substring of the input
value; in particular `matchAirspace "A+B" "XAYB"` holds and
`matchAirspace "A+B" "XAY"` does not. -/
theorem matchAirspace_correct :
    (∀ ruleVal inputVal : String,
      ((jsTrim ruleVal = "*" ∨ jsTrim ruleVal = "") →
        matchAirspace ruleVal inputVal = true) ∧
      (jsTrim ruleVal ≠ "*" → jsTrim ruleVal ≠ "" → jsTrim inputVal = "" →
        matchAirspace ruleVal inputVal = false) ∧
      (jsTrim ruleVal ≠ "*" → jsTrim ruleVal ≠ "" → jsTrim inputVal ≠ "" →
        (matchAirspace ruleVal inputVal = true ↔
          ∀ t ∈ reqTokens (jsTrim ruleVal),
            jsIncludes (jsUpper (jsTrim inputVal)) t = true))) ∧
    matchAirspace "A+B" "XAYB" = true ∧ matchAirspace "A+B" "XAY" = false := by
  refine ⟨?_, by decide, by decide⟩
  intro ruleVal inputVal
  refine ⟨?_, ?_, ?_⟩
  · rintro (h | h) <;> simp [matchAirspace, h]
  · intro h1 h2 h3
    simp [matchAirspace, h1, h2, h3]
  · intro h1 h2 h3
    simp [matchAirspace, h1, h2, h3, List.all_eq_true]

theorem matchAirspace_correct_witness :
    matchAirspace "A+B" "XAYB" = true ↔
      ∀ t ∈ reqTokens (jsTrim "A+B"),
        jsIncludes (jsUpper (jsTrim "XAYB")) t = true :=
  (matchAirspace_correct.1 "A+B" "XAYB").2.2 (by decide) (by decide) (by decide)

/-- C3: `matchField` accepts wildcard (`*` or empty) rule values
regardless of the input, rejects an empty trimmed input for non-wildcard
rule values, and otherwise compares the trimmed values
case-insensitively. -/
theorem matchField_correct (ruleVal inputVal : String) :
    ((jsTrim ruleVal = "*" ∨ jsTrim ruleVal = "") →
      matchField ruleVal inputVal = true) ∧
    (jsTrim ruleVal ≠ "*" → jsTrim ruleVal ≠ "" → jsTrim inputVal = "" →
      matchField ruleVal inputVal = false) ∧
    (jsTrim ruleVal ≠ "*" → jsTrim ruleVal ≠ "" → jsTrim inputVal ≠ "" →
      (matchField ruleVal inputVal = true ↔
        jsUpper (jsTrim ruleVal) = jsUpper (jsTrim inputVal))) := by
  refine ⟨matchField_wild ruleVal inputVal, ?_, ?_⟩
  · intro h1 h2 h3
    simp [matchField, h1, h2, h3]
  · intro h1 h2 h3
    simp [matchField, h1, h2, h3]

theorem matchField_correct_witness :
    (matchField "*" "ANYTHING" = true) ∧
    (matchField "" "ANYTHING" = true) ∧
    (matchField "X" "" = false) ∧
    (matchField "x" "X " = true ↔ jsUpper (jsTrim "x") = jsUpper (jsTrim "X ")) :=
  ⟨(matchField_correct "*" "ANYTHING").1 (Or.inl (by decide)),
   (matchField_correct "" "ANYTHING").1 (Or.inr (by decide)),
   (matchField_correct "X" "").2.1 (by decide) (by decide) (by decide),
   (matchField_correct "x" "X ").2.2 (by decide) (by decide) (by decide)⟩

/-- C9 (implicit): a rule value made only of delimiters and whitespace
(such as `"+"` or `" , "`) yields an empty required-token list, so
`matchAirspace` accepts every non-empty input (the "all tokens contained"
check is vacuous) while still rejecting an empty input, unlike the
documented wildcards `*` and the empty string. -/
theorem matchAirspace_delimOnly_nearWildcard :
    (∀ ruleVal, jsTrim ruleVal ≠ "*" → jsTrim ruleVal ≠ "" →
      reqTokens (jsTrim ruleVal) = [] →
      ∀ inputVal,
        (jsTrim inputVal ≠ "" → matchAirspace ruleVal inputVal = true) ∧
        (jsTrim inputVal = "" → matchAirspace ruleVal inputVal = false)) ∧
    reqTokens (jsTrim "+") = [] ∧ reqTokens (jsTrim " , ") = [] ∧
    matchAirspace "+" "Q" = true ∧ matchAirspace "+" "" = false ∧
    matchAirspace " , " "Q" = true ∧ matchAirspace "" "" = true := by
  refine ⟨?_, by decide, by decide, by decide, by decide, by decide, by decide⟩
  intro ruleVal h1 h2 htok inputVal
  constructor
  · intro h3
    simp [matchAirspace, h1, h2, h3, htok]
  · intro h3
    simp [matchAirspace, h1, h2, h3]

theorem matchAirspace_delimOnly_nearWildcard_witness :
    matchAirspace "++" "Q" = true ∧ matchAirspace "++" "" = false :=
  ⟨(matchAirspace_delimOnly_nearWildcard.1 "++" (by decide) (by decide) (by decide) "Q").1
      (by decide),
   (matchAirspace_delimOnly_nearWildcard.1 "++" (by decide) (by decide) (by decide) "").2
      (by decide)⟩

/-! ### The procedure classifier and the end-to-end scenario -/

/-- Model of `isClimbViaSidFromProcedure(procStr)`: trim and uppercase,
squash whitespace runs to dots, then test membership of the fixed
compound names and RNAV waypoint names. -/
def isClimbViaSidFromProcedure (procStr : String) : Bool :=
  let p := jsUpper (jsTrim procStr)
  if p = "" then false
  else
    let pNorm := squashWsToDot p
    if jsIncludes pNorm "LGA7.MASPETH" then true
    else if jsIncludes pNorm "LGA7.CONEY" then true
    else
      ["HOPEA", "JUTES", "TNNIS", "NTHNS", "GLDMN"].any
        (fun k => jsIncludes pNorm (k ++ "#") || jsIncludes pNorm k)

/-- The climb instruction derived in `runTool` from the matched rule's
output string. -/
def climbText (procStr : String) : String :=
  if isClimbViaSidFromProcedure procStr then "CLIMB VIA SID"
  else "CLIMB AND MAINTAIN 5,000"

/-- The rule row of the end-to-end scenario (C4). -/
def maspethRule : DepRule :=
  ⟨"4", "N", "*", "N", "*", "*", "*", "LGA7.MASPETH", "", 1⟩

/-- The canonical input vector of the end-to-end scenario (C4), for an
arbitrary aircraft type. -/
def c4Inputs (acft : String) : RuleInputs :=
  ⟨"4", "A", "N+S", "NE", "N", "WHITE", acft⟩

/-- A second satisfying row with the same priority 1 but a different
output, placed ahead of `maspethRule` in the table. -/
def c4Other : DepRule :=
  ⟨"4", "N", "*", "N", "*", "*", "*", "OTHER", "", 1⟩

/-- C4 counterexample: the claim's hypotheses hold for the table
`[c4Other, maspethRule]` — it contains the scenario row and no satisfying
row has lower priority — yet `pickDepartureRule` returns the distinct
row `c4Other`, because a priority tie is resolved in favour of the row
occurring earlier in the table, not of the scenario row. -/
theorem c4_counterexample :
    maspethRule ∈ [c4Other, maspethRule] ∧
    (∀ x ∈ [c4Other, maspethRule].filter (fun r => ruleMatches r (c4Inputs "B738")),
      maspethRule.PRIORITY ≤ x.PRIORITY) ∧
    pickDepartureRule [c4Other, maspethRule] (c4Inputs "B738") = some c4Other ∧
    c4Other ≠ maspethRule :=
  ⟨by decide, by decide, by decide, by decide⟩

/-- The `maspethRule` row satisfies all seven predicates against the
scenario inputs, for every aircraft type (its `ACFT_TYPE` is `*`). -/
theorem maspethRule_matches (acft : String) :
    ruleMatches maspethRule (c4Inputs acft) = true := by
  have h1 : matchField "*" acft = true :=
    matchField_wild "*" acft (Or.inl (by decide))
  simp only [ruleMatches, maspethRule, c4Inputs, h1]
  decide

/-- C4 (amended): for the scenario input vector and any table containing
the scenario row in which every other satisfying row has strictly greater
priority, `pickDepartureRule` selects the scenario row (its
`LGA_AIRSPACE_REQ = "N"` succeeds as a substring match against `"N+S"`),
and the derived climb instruction for its output is `CLIMB VIA SID`. -/
theorem c4_amended (table : List DepRule) (acft : String) :
    maspethRule ∈ table →
    (∀ x ∈ table.filter (fun r => ruleMatches r (c4Inputs acft)),
      x = maspethRule ∨ maspethRule.PRIORITY < x.PRIORITY) →
    pickDepartureRule table (c4Inputs acft) = some maspethRule ∧
    climbText maspethRule.OUTPUT = "CLIMB VIA SID" := by
  intro htab hothers
  have hmemf : maspethRule ∈ table.filter (fun r => ruleMatches r (c4Inputs acft)) :=
    List.mem_filter.mpr ⟨htab, maspethRule_matches acft⟩
  refine ⟨?_, by decide⟩
  cases hp : pickDepartureRule table (c4Inputs acft) with
  | none =>
    exfalso
    have hnil := (pick_none_iff table (c4Inputs acft)).mp hp
    rw [hnil] at hmemf
    exact List.not_mem_nil _ hmemf
  | some r =>
    obtain ⟨hmemr, hmin, -⟩ := pick_some_spec table (c4Inputs acft) r hp
    rcases hothers r hmemr with rfl | hlt
    · rfl
    · exact absurd (hmin maspethRule hmemf) (by omega)

/-- A higher-priority second satisfying row, to exercise `c4_amended`. -/
def c4High : DepRule :=
  ⟨"4", "N", "*", "N", "*", "*", "*", "OTHER", "", 2⟩

theorem c4_amended_witness :
    pickDepartureRule [c4High, maspethRule] (c4Inputs "B738") = some maspethRule ∧
    climbText maspethRule.OUTPUT = "CLIMB VIA SID" :=
  c4_amended [c4High, maspethRule] "B738" (by decide) (by decide)

/-! ### Frequency display -/

/-- `k`-digit zero-padded decimal rendering of `m`. -/
def padDigits : Nat → Nat → String
  | 0, _ => ""
  | k + 1, m => padDigits k (m / 10) ++ String.mk [Nat.digitChar (m % 10)]

/-- The magnitude part of `toFixed2`: the integer closest to `q * 100`
(ties towards the larger, per ECMA `toFixed`), printed with the decimal
point re-inserted. -/
def toFixed2Mag (q : JsNum) : String :=
  let n := (Int.fdiv (200 * q.num + (q.den : Int)) (2 * (q.den : Int))).toNat
  toString (n / 100) ++ "." ++ padDigits 2 (n % 100)

/-- Model of `x.toFixed(2)` on the exact value `q`. -/
def toFixed2 (q : JsNum) : String :=
  if q.num < 0 then "-" ++ toFixed2Mag ⟨-q.num, q.den, q.den_pos⟩
  else toFixed2Mag q

/-- Exact model of `n / 1000`. -/
def JsNum.div1000 (q : JsNum) : JsNum :=
  ⟨q.num, q.den * 1000, Nat.mul_pos q.den_pos (by decide)⟩

/-- Remove common factors of ten from a numerator/denominator pair (the
first argument is fuel, always called with the denominator itself). -/
def strip10 : Nat → Nat → Nat → Nat × Nat
  | 0, n, d => (n, d)
  | f + 1, n, d =>
    if d % 10 = 0 ∧ n % 10 = 0 ∧ 1 < d then strip10 f (n / 10) (d / 10) else (n, d)

/-- The exponent `j` of a power of ten `d = 10 ^ j` (fuelled). -/
def countTens : Nat → Nat → Nat
  | 0, _ => 0
  | f + 1, d => if d % 10 = 0 ∧ 1 < d then 1 + countTens f (d / 10) else 0

/-- Model of the JS number-to-string conversion `${n}` for the
decimal-denominator values produced by `jsNumber?`: the minimal exact
decimal rendering of the value. -/
def jsNumToString (q : JsNum) : String :=
  let s := strip10 q.den q.num.natAbs q.den
  let sign := if q.num < 0 then "-" else ""
  if s.2 = 1 then sign ++ toString s.1
  else
    let j := countTens s.2 s.2
    sign ++ toString (s.1 / s.2) ++ "." ++ padDigits j (s.1 % s.2)

/-- Model of `freqDisplayFromFrequencyKhz(raw)` from the source. -/
def freqDisplayFromFrequencyKhz (raw : String) : String :=
  let s := jsTrim raw
  if s = "" then "(unknown)"
  else
    match jsNumber? s with
    | none => s
    | some n =>
      if JsNum.geNat n 100000 then toFixed2 (JsNum.div1000 n) ++ " MHz"
      else jsNumToString n ++ " kHz"

theorem padDigits_length (k m : Nat) : (padDigits k m).length = k := by
  induction k generalizing m with
  | zero => rfl
  | succ k ih => simp [padDigits, String.length_append, ih]

theorem toFixed2_shape (q : JsNum) (h : 0 ≤ q.num) :
    ∃ s t, toFixed2 q = s ++ "." ++ t ∧ t.length = 2 := by
  refine ⟨toString ((Int.fdiv (200 * q.num + (q.den : Int)) (2 * (q.den : Int))).toNat / 100),
    padDigits 2 ((Int.fdiv (200 * q.num + (q.den : Int)) (2 * (q.den : Int))).toNat % 100),
    ?_, padDigits_length 2 _⟩
  rw [toFixed2, if_neg (not_lt.mpr h)]
  rfl

/-- C7 counterexample: `"0123"` is a numeric raw value below the MHz
threshold, but the rendering is `"123 kHz"`, not the raw text followed by
`" kHz"`; and the numeric raw value `"116.8"` renders as the non-integer
`"116.8 kHz"`, so the kHz branch does not produce an integer either. -/
theorem freqDisplay_counterexample :
    freqDisplayFromFrequencyKhz "0123" = "123 kHz" ∧
    "123 kHz" ≠ jsTrim "0123" ++ " kHz" ∧
    jsNumber? (jsTrim "0123") ≠ none ∧
    freqDisplayFromFrequencyKhz "116.8" = "116.8 kHz" ∧
    jsIncludes "116.8" "." = true :=
  ⟨by decide, by decide, by decide, by decide, by decide⟩

/-- C7 (amended): an empty trimmed raw value renders `"(unknown)"`; a
non-numeric raw value passes through after trimming; a numeric value
`≥ 100000` renders as the exact value divided by 1000 with exactly two
decimal places followed by `" MHz"`; any other numeric value renders as
the canonical decimal of the parsed value (not the raw text) followed by
`" kHz"`. -/
theorem freqDisplay_amended (raw : String) :
    (jsTrim raw = "" → freqDisplayFromFrequencyKhz raw = "(unknown)") ∧
    (jsTrim raw ≠ "" → jsNumber? (jsTrim raw) = none →
      freqDisplayFromFrequencyKhz raw = jsTrim raw) ∧
    (∀ n, jsTrim raw ≠ "" → jsNumber? (jsTrim raw) = some n →
      JsNum.geNat n 100000 = true →
      freqDisplayFromFrequencyKhz raw = toFixed2 (JsNum.div1000 n) ++ " MHz" ∧
      ∃ s t, toFixed2 (JsNum.div1000 n) = s ++ "." ++ t ∧ t.length = 2) ∧
    (∀ n, jsTrim raw ≠ "" → jsNumber? (jsTrim raw) = some n →
      JsNum.geNat n 100000 = false →
      freqDisplayFromFrequencyKhz raw = jsNumToString n ++ " kHz") := by
  refine ⟨?_, ?_, ?_, ?_⟩
  · intro h
    simp [freqDisplayFromFrequencyKhz, h]
  · intro h1 h2
    simp [freqDisplayFromFrequencyKhz, h1, h2]
  · intro n h1 h2 h3
    constructor
    · simp [freqDisplayFromFrequencyKhz, h1, h2, h3]
    · apply toFixed2_shape
      have hge := of_decide_eq_true h3
      have hd : (0 : Int) < (n.den : Int) := by exact_mod_cast n.den_pos
      have : (0 : Int) < (100000 : Int) * (n.den : Int) := by positivity
      show (0 : Int) ≤ n.num
      calc (0 : Int) ≤ (100000 : Int) * (n.den : Int) := le_of_lt this
        _ ≤ n.num := hge
  · intro n h1 h2 h3
    simp [freqDisplayFromFrequencyKhz, h1, h2, h3]

theorem freqDisplay_amended_witness :
    (freqDisplayFromFrequencyKhz "" = "(unknown)") ∧
    (freqDisplayFromFrequencyKhz " ATIS " = jsTrim " ATIS ") ∧
    (freqDisplayFromFrequencyKhz "116800" =
      toFixed2 (JsNum.div1000 ⟨116800, 1, Nat.one_pos⟩) ++ " MHz") ∧
    (freqDisplayFromFrequencyKhz "116.8" =
      jsNumToString ⟨1168, 10, by decide⟩ ++ " kHz") :=
  ⟨(freqDisplay_amended "").1 (by decide),
   (freqDisplay_amended " ATIS ").2.1 (by decide) (by decide),
   ((freqDisplay_amended "116800").2.2.1 ⟨116800, 1, Nat.one_pos⟩ (by decide) (by decide)
      (by decide)).1,
   (freqDisplay_amended "116.8").2.2.2 ⟨1168, 10, by decide⟩ (by decide) (by decide)
      (by decide)⟩

/-! ### METAR report-line selection -/

/-- The non-blank trimmed lines of a weather response
(`text.replace(/\r/g,"").split("\n").map(trim).filter(Boolean)`). -/
def metarLines (text : String) : List String :=
  ((jsSplitAny (fun c => c = '\n') (removeCR text)).map jsTrim).filter (fun l => l ≠ "")

/-- The pure line-selection logic of `fetchVatsimMetar`, applied to the
fetched response text: the first line whose uppercasing starts with the
identifier plus a space, else the first non-blank line, else the
synthesized `"<ID> (no METAR)"` placeholder. -/
def chooseMetarLine (text icao : String) : String :=
  let id := jsUpper (jsTrim icao)
  match (metarLines text).find? (fun l => jsStartsWith (jsUpper l) (id ++ " ")) with
  | some l => l
  | none =>
    match metarLines text with
    | [] => id ++ " (no METAR)"
    | l :: _ => l

/-- The first space-separated token of a line (the claim's notion of an
exact-start match). -/
def firstToken (l : String) : String :=
  (jsSplitAny (fun c => c = ' ') l).headD ""

/-- C8 counterexample: in the response `"XXX 123\nKLGA"`, the first line
whose first token equals the identifier `KLGA` is `"KLGA"`, but the code
requires the identifier to be followed by a space and therefore falls
back to the first line `"XXX 123"`; and an empty response synthesizes
`"KLGA (no METAR)"`, not a `"(no report)"` placeholder. -/
theorem chooseMetarLine_counterexample :
    (metarLines "XXX 123\nKLGA").find?
        (fun l => firstToken l = jsUpper (jsTrim "KLGA")) = some "KLGA" ∧
    chooseMetarLine "XXX 123\nKLGA" "KLGA" = "XXX 123" ∧
    "XXX 123" ≠ "KLGA" ∧
    chooseMetarLine "" "KLGA" = "KLGA (no METAR)" ∧
    jsIncludes (chooseMetarLine "" "KLGA") "(no report)" = false :=
  ⟨by decide, by decide, by decide, by decide, by decide⟩

/-- C8 (amended): the selected report line is the first non-blank trimmed
line whose uppercasing starts with the identifier followed by a space; in
the absence of such a line, the first non-blank line; and if the response
has no non-blank lines, the synthesized placeholder
`"<ID> (no METAR)"` — never an error.  All candidate lines are
non-blank. -/
theorem chooseMetarLine_amended (text icao : String) :
    (∀ l, (metarLines text).find?
        (fun l => jsStartsWith (jsUpper l) (jsUpper (jsTrim icao) ++ " ")) = some l →
      chooseMetarLine text icao = l) ∧
    ((metarLines text).find?
        (fun l => jsStartsWith (jsUpper l) (jsUpper (jsTrim icao) ++ " ")) = none →
      metarLines text ≠ [] →
      chooseMetarLine text icao = (metarLines text).headD "") ∧
    ((metarLines text).find?
        (fun l => jsStartsWith (jsUpper l) (jsUpper (jsTrim icao) ++ " ")) = none →
      metarLines text = [] →
      chooseMetarLine text icao = jsUpper (jsTrim icao) ++ " (no METAR)") ∧
    (∀ l ∈ metarLines text, l ≠ "") := by
  refine ⟨?_, ?_, ?_, ?_⟩
  · intro l h
    simp [chooseMetarLine, h]
  · intro h hne
    cases hml : metarLines text with
    | nil => exact absurd hml hne
    | cons a t =>
      rw [hml] at h
      simp [chooseMetarLine, hml, h]
  · intro h hml
    simp [chooseMetarLine, h, hml]
  · intro l hl
    have := List.mem_filter.mp hl
    simpa using this.2

theorem chooseMetarLine_amended_witness :
    chooseMetarLine "KLGA 12012KT 10SM\nKJFK 00000KT" "klga" = "KLGA 12012KT 10SM" ∧
    chooseMetarLine "remark only" "KLGA" = (metarLines "remark only").headD "" ∧
    chooseMetarLine "\n\n" "KLGA" = jsUpper (jsTrim "KLGA") ++ " (no METAR)" :=
  ⟨(chooseMetarLine_amended "KLGA 12012KT 10SM\nKJFK 00000KT" "klga").1
      "KLGA 12012KT 10SM" (by decide),
   (chooseMetarLine_amended "remark only" "KLGA").2.1 (by decide) (by decide),
   (chooseMetarLine_amended "\n\n" "KLGA").2.2.1 (by decide) (by decide)⟩

/-! ### METAR visibility and ceiling parsing, flight category -/

/-- JS `\w`: word characters. -/
def wordChar (c : Char) : Bool :=
  c.isAlphanum || c = '_'

/-- The next character (if any) is not a word character: JS `\b` after a
word character. -/
def notWordHead : List Char → Bool
  | [] => true
  | c :: _ => !(wordChar c)

/-- Attempt `(\d{3})\b` at the head of the list. -/
def ceilDigits : List Char → Option Nat
  | d1 :: d2 :: d3 :: rest =>
    if d1.isDigit ∧ d2.isDigit ∧ d3.isDigit ∧ notWordHead rest = true then
      some (digitsToNat [d1, d2, d3])
    else none
  | _ => none

/-- Attempt `(BKN|OVC|VV)(\d{3})\b` at the head of the list. -/
def tryCeil : List Char → Option Nat
  | 'B' :: 'K' :: 'N' :: r => ceilDigits r
  | 'O' :: 'V' :: 'C' :: r => ceilDigits r
  | 'V' :: 'V' :: r => ceilDigits r
  | _ => none

/-- All layer heights matched by `/\b(BKN|OVC|VV)(\d{3})\b/g`.  Every
character of a match is a word character, so no match can begin strictly
inside another (the `\b` before it would fail); scanning every position
whose predecessor is not a word character therefore finds exactly the
matches of the global regex. -/
def ceilScan : Bool → List Char → List Nat
  | _, [] => []
  | prevWord, c :: rest =>
    match (if prevWord then none else tryCeil (c :: rest)) with
    | some v => v :: ceilScan (wordChar c) rest
    | none => ceilScan (wordChar c) rest

/-- Model of `parseCeilFt(metar)`: the minimum of `height * 100` over all
cloud-layer matches, `none` (= Infinity) when there are none. -/
def parseCeilFt (metar : String) : Option Nat :=
  (ceilScan false metar.data).foldl
    (fun acc h => some (match acc with | none => h * 100 | some a => min a (h * 100)))
    none

/-- The shapes matched by the visibility group
`(\d+\s+\d+\/\d+|\d+\/\d+|\d+)`, keeping the raw digit and whitespace
runs so that the post-processing can be modelled exactly. -/
inductive VisForm where
  | mixed (w ws a b : List Char)
  | frac (a b : List Char)
  | whole (n : List Char)
deriving DecidableEq

/-- `\s*SM\b` at the head of the list. -/
def smTailOk (cs : List Char) : Bool :=
  match (takeWs cs).2 with
  | 'S' :: 'M' :: r => notWordHead r
  | _ => false

/-- Attempt `(\d+\s+\d+\/\d+|\d+\/\d+|\d+)\s*SM\b` at the head of the
list, alternatives in regex order.  The quantifiers are all
maximal-munch here: in each alternative a shorter `\d+` or `\s+`/`\s*`
leaves a digit or whitespace character where the next literal is
required, so the backtracking regex accepts exactly the maximal runs. -/
def tryVis (cs : List Char) : Option VisForm :=
  let d1 := takeDigits cs
  if d1.1 = [] then none
  else
    let alt1 : Option VisForm :=
      let ws := takeWs d1.2
      if ws.1 = [] then none
      else
        let d2 := takeDigits ws.2
        if d2.1 = [] then none
        else
          match d2.2 with
          | '/' :: r4 =>
            let d3 := takeDigits r4
            if d3.1 ≠ [] ∧ smTailOk d3.2 = true then some (.mixed d1.1 ws.1 d2.1 d3.1)
            else none
          | _ => none
    match alt1 with
    | some f => some f
    | none =>
      let alt2 : Option VisForm :=
        match d1.2 with
        | '/' :: r2 =>
          let d2 := takeDigits r2
          if d2.1 ≠ [] ∧ smTailOk d2.2 = true then some (.frac d1.1 d2.1) else none
        | _ => none
      match alt2 with
      | some f => some f
      | none => if smTailOk d1.2 = true then some (.whole d1.1) else none

/-- The leftmost match of the visibility regex. -/
def visScan : List Char → Option VisForm
  | [] => none
  | c :: rest =>
    match tryVis (c :: rest) with
    | some f => some f
    | none => visScan rest

/-- The numeric evaluation the source applies to the captured group:
mixed numbers need an actual space (`raw.includes(" ")`) — a tab-only
separator falls into the `"/"` branch and yields `NaN` — and a zero
denominator yields `NaN`. -/
def evalVis : VisForm → Option JsNum
  | .mixed w ws a b =>
    if ws.contains ' ' then
      if h : digitsToNat b = 0 then none
      else some ⟨((digitsToNat w * digitsToNat b + digitsToNat a : Nat) : Int),
                 digitsToNat b, Nat.pos_of_ne_zero h⟩
    else none
  | .frac a b =>
    if h : digitsToNat b = 0 then none
    else some ⟨((digitsToNat a : Nat) : Int), digitsToNat b, Nat.pos_of_ne_zero h⟩
  | .whole n => some ⟨((digitsToNat n : Nat) : Int), 1, Nat.one_pos⟩

/-- Model of `parseVisSM(metar)` (`none` = `NaN`). -/
def parseVisSM (metar : String) : Option JsNum :=
  (visScan metar.data).bind evalVis

/-- The parsed ceiling is defined and below `k` feet
(`Number.isFinite(ceil) && ceil < k`). -/
def ceilBelow (metar : String) (k : Nat) : Prop :=
  match parseCeilFt metar with
  | some c => c < k
  | none => False

/-- The parsed visibility is defined and below `k` statute miles
(`Number.isFinite(vis) && vis < k`). -/
def visBelow (metar : String) (k : Nat) : Prop :=
  match parseVisSM metar with
  | some v => v.num < (k : Int) * (v.den : Int)
  | none => False

instance (m : String) (k : Nat) : Decidable (ceilBelow m k) :=
  match h : parseCeilFt m with
  | some c => decidable_of_iff (c < k) (by simp [ceilBelow, h])
  | none => decidable_of_iff False (by simp [ceilBelow, h])

instance (m : String) (k : Nat) : Decidable (visBelow m k) :=
  match h : parseVisSM m with
  | some v => decidable_of_iff (v.num < (k : Int) * (v.den : Int)) (by simp [visBelow, h])
  | none => decidable_of_iff False (by simp [visBelow, h])

/-- Model of `flightCategory(metar)`: the `(cat, cls)` pair. -/
def flightCategory (metar : String) : String × String :=
  let m := jsTrim metar
  if m = "" then ("—", "")
  else
    let vis := parseVisSM m
    let ceil := parseCeilFt m
    let ceilLt : Nat → Bool := fun k =>
      match ceil with
      | some c => decide (c < k)
      | none => false
    let visLt : Nat → Bool := fun k =>
      match vis with
      | some v => JsNum.ltNat v k
      | none => false
    if ceilLt 500 || visLt 1 then ("LIFR", "wxCatLIFR")
    else if ceilLt 1000 || visLt 3 then ("IFR", "wxCatIFR")
    else if ceilLt 3000 || visLt 5 then ("MVFR", "wxCatMVFR")
    else ("VFR", "wxCatVFR")

/-- C5: the flight category is LIFR when the parsed ceiling is below
500 ft or the parsed visibility below 1 SM, else IFR below
1000 ft / 3 SM, else MVFR below 3000 ft / 5 SM, else VFR; a blank report
yields the category `"—"` rather than an error; and the band boundaries
are exclusive on the upper side — a ceiling of exactly 500 ft gives IFR,
not LIFR, and a visibility of exactly 3 SM gives MVFR, not IFR. -/
theorem flightCategory_correct :
    (∀ metar, jsTrim metar = "" → flightCategory metar = ("—", "")) ∧
    (∀ metar, jsTrim metar ≠ "" →
      (flightCategory metar).1 =
        if ceilBelow (jsTrim metar) 500 ∨ visBelow (jsTrim metar) 1 then "LIFR"
        else if ceilBelow (jsTrim metar) 1000 ∨ visBelow (jsTrim metar) 3 then "IFR"
        else if ceilBelow (jsTrim metar) 3000 ∨ visBelow (jsTrim metar) 5 then "MVFR"
        else "VFR") ∧
    parseCeilFt (jsTrim "KLGA 10SM OVC005") = some 500 ∧
    flightCategory "KLGA 10SM OVC005" = ("IFR", "wxCatIFR") ∧
    parseVisSM (jsTrim "KLGA 3SM") = some ⟨3, 1, Nat.one_pos⟩ ∧
    flightCategory "KLGA 3SM" = ("MVFR", "wxCatMVFR") := by
  refine ⟨?_, ?_, by decide, by decide, by decide, by decide⟩
  · intro metar h
    simp [flightCategory, h]
  · intro metar h
    cases hc : parseCeilFt (jsTrim metar) <;> cases hv : parseVisSM (jsTrim metar) <;>
      simp [flightCategory, h, hc, hv, ceilBelow, visBelow, JsNum.ltNat] <;>
      split_ifs <;> rfl

theorem flightCategory_correct_witness :
    (flightCategory "" = ("—", "")) ∧
    ((flightCategory "KLGA 3SM").1 =
      if ceilBelow (jsTrim "KLGA 3SM") 500 ∨ visBelow (jsTrim "KLGA 3SM") 1 then "LIFR"
      else if ceilBelow (jsTrim "KLGA 3SM") 1000 ∨ visBelow (jsTrim "KLGA 3SM") 3 then "IFR"
      else if ceilBelow (jsTrim "KLGA 3SM") 3000 ∨ visBelow (jsTrim "KLGA 3SM") 5 then "MVFR"
      else "VFR") :=
  ⟨flightCategory_correct.1 "" (by decide),
   flightCategory_correct.2.1 "KLGA 3SM" (by decide)⟩

/-! ### Runway-configuration decision trees -/

/-- Model of `/^(IFR|LIFR|IMC)$/.test(String(rawCat || "").toUpperCase())`. -/
def imcTest (rawCat : String) : Bool :=
  jsUpper rawCat = "IFR" || jsUpper rawCat = "LIFR" || jsUpper rawCat = "IMC"

/-- The JS normalization `((dir % 360) + 360) % 360`. -/
def dirNorm (d : JsNum) : JsNum :=
  ((d.jsMod 360).addNat 360).jsMod 360

/-- The ordered conditional cascade of `lgaSuggestedConfigFromInputs`
after wind parsing.  The source's speed-band blocks contain early returns
per direction sector and fall through to the next block when no sector
matches; that control flow is flattened here into one ordered chain, each
source `return` becoming one `band && sector` arm in source order. -/
def lgaCascade (spd dir : JsNum) (imc : Bool) : String :=
  if spd.leNat 4 then "Depart 31, Land ILS 22"
  else if spd.leNat 14 && (dir.geNat 315 || dir.leNat 44) then
    (if imc then "Depart 4, Land LOC 31" else "Depart 4, Land RNAV GPS X 31")
  else if spd.leNat 14 && (dir.geNat 45 && dir.leNat 134) then "Depart 13, Land ILS 4"
  else if spd.leNat 14 && (dir.geNat 135 && dir.leNat 259) then "Depart 13, Land ILS 22"
  else if spd.leNat 14 && (dir.geNat 260 && dir.leNat 314) then "Depart 31, Land ILS 22"
  else if spd.leNat 27 && (dir.geNat 315 || dir.leNat 44) then
    (if imc then "Depart 4, Land LOC 31" else "Depart 4, Land RNAV GPS X 31")
  else if spd.leNat 27 && (dir.geNat 45 && dir.leNat 134) then "Depart 13, Land ILS 4"
  else if spd.leNat 27 && (dir.geNat 135 && dir.leNat 224) then "Depart 13, Land ILS 22"
  else if spd.leNat 27 && (dir.geNat 225 && dir.leNat 314) then "Depart 31, Land ILS 22"
  else if dir.leNat 89 then "Depart 4, Land ILS 4"
  else if dir.leNat 179 then
    (if imc then "Depart 13, Land ILS 13" else "Depart 13, Land ILS 22 CIR 13")
  else if dir.leNat 269 then "Depart 22, Land ILS 22"
  else "Depart 31, Land LOC 31"

/-- Model of `lgaSuggestedConfigFromInputs(rawDir, rawSpd, rawCat)`. -/
def lgaSuggestedConfigFromInputs (rawDir : String) (rawSpd : Option JsNum)
    (rawCat : String) : String :=
  match rawSpd with
  | none => ""
  | some spd =>
    if rawDir = "" then ""
    else if jsUpper rawDir = "VRB" then "Depart 31, Land ILS 22"
    else
      match jsNumber? (jsUpper rawDir) with
      | none => ""
      | some d0 => lgaCascade spd (dirNorm d0) (imcTest rawCat)

/-- The direction cascade of `jfkSuggestedConfigFromInputs`. -/
def jfkCascade (dir : JsNum) : String :=
  if dir.leNat 99 then "Depart 04L, Land 04L/R"
  else if dir.leNat 159 then "Depart 13L/R, Land 13L + 22L"
  else if dir.leNat 259 then "Depart 22R, Land 22L/R"
  else "Depart 31L/R, Land 31L/R"

/-- Model of `jfkSuggestedConfigFromInputs(rawDir, rawSpd)`. -/
def jfkSuggestedConfigFromInputs (rawDir : String) (rawSpd : Option JsNum) : String :=
  match rawSpd with
  | none => ""
  | some spd =>
    if rawDir = "" then ""
    else if jsUpper rawDir = "VRB" || spd.leNat 4 then "Depart 31L/R, Land 31L/R"
    else
      match jsNumber? (jsUpper rawDir) with
      | none => ""
      | some d0 => jfkCascade (dirNorm d0)

theorem ite_ne_empty (c : Prop) [Decidable c] (a b : String)
    (ha : a ≠ "") (hb : b ≠ "") : (if c then a else b) ≠ "" := by
  split <;> assumption

theorem lgaCascade_ne_empty (spd dir : JsNum) (imc : Bool) :
    lgaCascade spd dir imc ≠ "" := by
  rw [lgaCascade]
  repeat' apply ite_ne_empty
  all_goals decide

theorem jfkCascade_ne_empty (dir : JsNum) : jfkCascade dir ≠ "" := by
  rw [jfkCascade]
  repeat' apply ite_ne_empty
  all_goals decide

/-- C10: totality over valid wind inputs — for every non-empty direction
string that is `VRB` (after uppercasing) or parses to a finite number,
and every finite speed, both decision trees return a non-empty
configuration string; no valid input reaches the empty-string result. -/
theorem suggestedConfig_total (rawDir : String) (spd : JsNum) (rawCat : String) :
    rawDir ≠ "" →
    (jsUpper rawDir = "VRB" ∨ (jsNumber? (jsUpper rawDir)).isSome = true) →
    lgaSuggestedConfigFromInputs rawDir (some spd) rawCat ≠ "" ∧
    jfkSuggestedConfigFromInputs rawDir (some spd) ≠ "" := by
  intro h1 h2
  have hcase : jsUpper rawDir = "VRB" ∨
      (jsUpper rawDir ≠ "VRB" ∧ ∃ d0, jsNumber? (jsUpper rawDir) = some d0) := by
    by_cases hv : jsUpper rawDir = "VRB"
    · exact Or.inl hv
    · rcases h2 with hv' | hn
      · exact absurd hv' hv
      · exact Or.inr ⟨hv, Option.isSome_iff_exists.mp hn⟩
  constructor
  · show (if rawDir = "" then ""
      else if jsUpper rawDir = "VRB" then "Depart 31, Land ILS 22"
      else
        match jsNumber? (jsUpper rawDir) with
        | none => ""
        | some d0 => lgaCascade spd (dirNorm d0) (imcTest rawCat)) ≠ ""
    rw [if_neg h1]
    rcases hcase with hv | ⟨hv, d0, hd⟩
    · simp [hv]
    · rw [if_neg hv, hd]
      exact lgaCascade_ne_empty spd (dirNorm d0) (imcTest rawCat)
  · show (if rawDir = "" then ""
      else if jsUpper rawDir = "VRB" || spd.leNat 4 then "Depart 31L/R, Land 31L/R"
      else
        match jsNumber? (jsUpper rawDir) with
        | none => ""
        | some d0 => jfkCascade (dirNorm d0)) ≠ ""
    rw [if_neg h1]
    rcases hcase with hv | ⟨hv, d0, hd⟩
    · simp [hv]
    · by_cases hs : spd.leNat 4 = true
      · simp [hs]
      · rw [if_neg (by simp [hv, hs]), hd]
        exact jfkCascade_ne_empty (dirNorm d0)

/-! ### Navaid index construction and its ordering invariant

`buildNavaidMaps` computes each record's distance from KLGA with the
real-valued haversine formula; real trigonometry has no executable
embedding, so the distance function is a parameter `hav` of the model
(the invariant below holds for every choice of it).  A record whose
latitude or longitude fails `Number.isFinite` gets distance `Infinity`,
modelled as `none`. -/

structure NavaidRow where
  ident : String
  name : String
  type : String
  frequency_khz : String
  latitude_deg : String
  longitude_deg : String

structure NavaidObj where
  IDENT : String
  NAME : String
  TYPE : String
  FREQ_RAW : String
  FREQ_DISPLAY : String
  LAT : Option JsNum
  LON : Option JsNum
  DIST_NM : Option JsNum
deriving DecidableEq

/-- The record object built per row in `buildNavaidMaps`. -/
def navaidObjOfRow (hav : JsNum → JsNum → JsNum) (r : NavaidRow) : NavaidObj :=
  let lat := toNumberOrNaN r.latitude_deg
  let lon := toNumberOrNaN r.longitude_deg
  { IDENT := jsUpper (jsTrim r.ident)
    NAME := jsTrim r.name
    TYPE := jsUpper (jsTrim r.type)
    FREQ_RAW := jsTrim r.frequency_khz
    FREQ_DISPLAY := freqDisplayFromFrequencyKhz r.frequency_khz
    LAT := lat
    LON := lon
    DIST_NM :=
      match lat, lon with
      | some la, some lo => some (hav la lo)
      | _, _ => none }

/-- Append `obj` to the group of `key`, preserving first-seen key order
(the iteration order of a JS `Map`). -/
def insertNavaid (acc : List (String × List NavaidObj)) (key : String)
    (obj : NavaidObj) : List (String × List NavaidObj) :=
  match acc with
  | [] => [(key, [obj])]
  | (k, l) :: rest =>
    if k = key then (k, l ++ [obj]) :: rest else (k, l) :: insertNavaid rest key obj

/-- The grouping loop of `buildNavaidMaps`: rows with an empty normalized
identifier are skipped. -/
def buildGroupsAux (hav : JsNum → JsNum → JsNum) (acc : List (String × List NavaidObj)) :
    List NavaidRow → List (String × List NavaidObj)
  | [] => acc
  | r :: rest =>
    if jsUpper (jsTrim r.ident) = "" then buildGroupsAux hav acc rest
    else buildGroupsAux hav (insertNavaid acc (jsUpper (jsTrim r.ident)) (navaidObjOfRow hav r)) rest

/-- The JS comparator
`(a, b) => (a.DIST_NM - b.DIST_NM) || a.NAME.localeCompare(b.NAME)` as a
total preorder (`compare ≤ 0`).  `Infinity - finite` is positive,
`finite - Infinity` negative, and `Infinity - Infinity` is `NaN`, which
is falsy, so two infinite distances fall through to the name
comparison. -/
def distNameLeB (da db : Option JsNum) (na nb : String) : Bool :=
  match da, db with
  | some x, some y =>
    if x.num * (y.den : Int) < y.num * (x.den : Int) then true
    else if y.num * (x.den : Int) < x.num * (y.den : Int) then false
    else strLe na nb
  | some _, none => true
  | none, some _ => false
  | none, none => strLe na nb

def navaidLeB (a b : NavaidObj) : Bool :=
  distNameLeB a.DIST_NM b.DIST_NM a.NAME b.NAME

def navaidRel : NavaidObj → NavaidObj → Prop := fun a b => navaidLeB a b = true

instance : DecidableRel navaidRel := fun a b => instDecidableEqBool (navaidLeB a b) true

/-- Model of `buildNavaidMaps(rows)`: group rows by normalized identifier
and stably sort each group with the distance/name comparator. -/
def buildNavaidMaps (hav : JsNum → JsNum → JsNum) (rows : List NavaidRow) :
    List (String × List NavaidObj) :=
  (buildGroupsAux hav [] rows).map (fun p => (p.1, List.insertionSort navaidRel p.2))

/-! Totality and transitivity of the comparator order. -/

theorem charListLe_cons (a b : Char) (s t : List Char) :
    charListLe (a :: s) (b :: t) = true ↔
      (a.toNat < b.toNat ∨ (a.toNat = b.toNat ∧ charListLe s t = true)) := by
  simp only [charListLe]
  split_ifs with h1 h2
  · simp [h1]
  · simp only [Bool.false_eq_true, false_iff]
    rintro (h | ⟨he, -⟩) <;> omega
  · have he : a.toNat = b.toNat := by omega
    simp [he, h1]

theorem charListLe_total : ∀ s t : List Char, charListLe s t = true ∨ charListLe t s = true
  | [], _ => Or.inl rfl
  | _ :: _, [] => Or.inr rfl
  | a :: s, b :: t => by
    rw [charListLe_cons, charListLe_cons]
    rcases Nat.lt_trichotomy a.toNat b.toNat with h | h | h
    · exact Or.inl (Or.inl h)
    · rcases charListLe_total s t with hh | hh
      · exact Or.inl (Or.inr ⟨h, hh⟩)
      · exact Or.inr (Or.inr ⟨h.symm, hh⟩)
    · exact Or.inr (Or.inl h)

theorem charListLe_trans :
    ∀ s t u : List Char, charListLe s t = true → charListLe t u = true →
      charListLe s u = true
  | [], _, _, _, _ => rfl
  | _ :: _, [], _, h1, _ => by simp [charListLe] at h1
  | _ :: _, _ :: _, [], _, h2 => by simp [charListLe] at h2
  | a :: s, b :: t, c :: u, h1, h2 => by
    rw [charListLe_cons] at h1 h2 ⊢
    rcases h1 with h1 | ⟨h1e, h1r⟩
    · rcases h2 with h2 | ⟨h2e, h2r⟩
      · exact Or.inl (by omega)
      · exact Or.inl (by omega)
    · rcases h2 with h2 | ⟨h2e, h2r⟩
      · exact Or.inl (by omega)
      · exact Or.inr ⟨by omega, charListLe_trans s t u h1r h2r⟩

theorem strLe_total (a b : String) : strLe a b = true ∨ strLe b a = true :=
  charListLe_total a.data b.data

theorem strLe_trans {a b c : String} (h1 : strLe a b = true) (h2 : strLe b c = true) :
    strLe a c = true :=
  charListLe_trans a.data b.data c.data h1 h2

/-- The rational value of a `JsNum` (used only in proofs, to transport
order reasoning to `ℚ`). -/
def val (q : JsNum) : ℚ := (q.num : ℚ) / (q.den : ℚ)

theorem cross_lt_iff (x y : JsNum) :
    x.num * (y.den : Int) < y.num * (x.den : Int) ↔ val x < val y := by
  have hx : (0 : ℚ) < (x.den : ℚ) := by exact_mod_cast x.den_pos
  have hy : (0 : ℚ) < (y.den : ℚ) := by exact_mod_cast y.den_pos
  rw [val, val, div_lt_div_iff₀ hx hy]
  constructor <;> intro h <;> exact_mod_cast h

theorem cross_eq_iff (x y : JsNum) :
    x.num * (y.den : Int) = y.num * (x.den : Int) ↔ val x = val y := by
  have hx : (x.den : ℚ) ≠ 0 := by
    have : (0 : ℚ) < (x.den : ℚ) := by exact_mod_cast x.den_pos
    exact ne_of_gt this
  have hy : (y.den : ℚ) ≠ 0 := by
    have : (0 : ℚ) < (y.den : ℚ) := by exact_mod_cast y.den_pos
    exact ne_of_gt this
  rw [val, val, div_eq_div_iff hx hy]
  constructor <;> intro h <;> exact_mod_cast h

theorem navaidLeB_ss_iff {a b : NavaidObj} {x y : JsNum}
    (ha : a.DIST_NM = some x) (hb : b.DIST_NM = some y) :
    navaidRel a b ↔ (val x < val y ∨ (val x = val y ∧ strLe a.NAME b.NAME = true)) := by
  unfold navaidRel navaidLeB
  rw [ha, hb]
  simp only [distNameLeB]
  split_ifs with h1 h2
  · simp [(cross_lt_iff x y).mp h1]
  · rw [cross_lt_iff] at h1 h2
    simp only [Bool.false_eq_true, false_iff]
    rintro (h | ⟨he, -⟩)
    · exact h1 h
    · exact absurd he.le (not_le.mpr h2)
  · rw [cross_lt_iff] at h1 h2
    have he : val x = val y := le_antisymm (not_lt.mp h2) (not_lt.mp h1)
    simp [he, lt_irrefl]

instance : IsTotal NavaidObj navaidRel := by
  constructor
  intro a b
  cases ha : a.DIST_NM with
  | none =>
    cases hb : b.DIST_NM with
    | none =>
      unfold navaidRel navaidLeB
      rw [ha, hb]
      simp only [distNameLeB]
      exact strLe_total a.NAME b.NAME
    | some y =>
      right
      unfold navaidRel navaidLeB
      rw [ha, hb]
      simp only [distNameLeB]
  | some x =>
    cases hb : b.DIST_NM with
    | none =>
      left
      unfold navaidRel navaidLeB
      rw [ha, hb]
      simp only [distNameLeB]
    | some y =>
      rw [navaidLeB_ss_iff ha hb, navaidLeB_ss_iff hb ha]
      rcases lt_trichotomy (val x) (val y) with h | h | h
      · exact Or.inl (Or.inl h)
      · rcases strLe_total a.NAME b.NAME with hh | hh
        · exact Or.inl (Or.inr ⟨h, hh⟩)
        · exact Or.inr (Or.inr ⟨h.symm, hh⟩)
      · exact Or.inr (Or.inl h)

instance : IsTrans NavaidObj navaidRel := by
  constructor
  intro a b c hab hbc
  cases ha : a.DIST_NM with
  | none =>
    cases hb : b.DIST_NM with
    | none =>
      cases hc : c.DIST_NM with
      | none =>
        unfold navaidRel navaidLeB at hab hbc ⊢
        rw [ha, hb] at hab
        rw [hb, hc] at hbc
        rw [ha, hc]
        simp only [distNameLeB] at hab hbc ⊢
        exact strLe_trans hab hbc
      | some z =>
        exfalso
        unfold navaidRel navaidLeB at hbc
        rw [hb, hc] at hbc
        exact Bool.false_ne_true hbc
    | some y =>
      exfalso
      unfold navaidRel navaidLeB at hab
      rw [ha, hb] at hab
      exact Bool.false_ne_true hab
  | some x =>
    cases hc : c.DIST_NM with
    | none =>
      unfold navaidRel navaidLeB
      rw [ha, hc]
      simp only [distNameLeB]
    | some z =>
      cases hb : b.DIST_NM with
      | none =>
        exfalso
        unfold navaidRel navaidLeB at hbc
        rw [hb, hc] at hbc
        exact Bool.false_ne_true hbc
      | some y =>
        rw [navaidLeB_ss_iff ha hb] at hab
        rw [navaidLeB_ss_iff hb hc] at hbc
        rw [navaidLeB_ss_iff ha hc]
        rcases hab with h1 | ⟨h1, n1⟩
        · rcases hbc with h2 | ⟨h2, n2⟩
          · exact Or.inl (lt_trans h1 h2)
          · exact Or.inl (h2 ▸ h1)
        · rcases hbc with h2 | ⟨h2, n2⟩
          · exact Or.inl (h1 ▸ h2)
          · exact Or.inr ⟨h1.trans h2, strLe_trans n1 n2⟩

/-- The ordering the claim states, spelled out: ascending distance (as an
exact rational), ties broken alphabetically by name, records without a
distance after every record with one, and two distance-less records
ordered by name. -/
def distNameOrder (da db : Option JsNum) (na nb : String) : Prop :=
  match da, db with
  | some x, some y =>
    x.num * (y.den : Int) < y.num * (x.den : Int) ∨
      (x.num * (y.den : Int) = y.num * (x.den : Int) ∧ strLe na nb = true)
  | some _, none => True
  | none, some _ => False
  | none, none => strLe na nb = true

def navaidOrder (a b : NavaidObj) : Prop :=
  distNameOrder a.DIST_NM b.DIST_NM a.NAME b.NAME

theorem navaidRel_imp_order {a b : NavaidObj} (h : navaidRel a b) : navaidOrder a b := by
  unfold navaidRel navaidLeB at h
  unfold navaidOrder
  cases ha : a.DIST_NM with
  | none =>
    cases hb : b.DIST_NM with
    | none =>
      rw [ha, hb] at h
      simp only [distNameLeB] at h
      simp only [distNameOrder]
      exact h
    | some y =>
      rw [ha, hb] at h
      exact absurd h Bool.false_ne_true
  | some x =>
    cases hb : b.DIST_NM with
    | none =>
      simp only [distNameOrder]
    | some y =>
      rw [ha, hb] at h
      simp only [distNameLeB] at h
      simp only [distNameOrder]
      split_ifs at h with h1 h2
      · exact Or.inl h1
      · exact Or.inr ⟨by omega, h⟩

/-- C6: after `buildNavaidMaps` runs on any row sequence (and for any
distance function standing in for the haversine computation), every
per-identifier list is sorted by non-decreasing distance with ties broken
alphabetically by name; records lacking a finite distance sort after
every record with one, and two such records are still ordered by name. -/
theorem buildNavaidMaps_sorted (hav : JsNum → JsNum → JsNum) (rows : List NavaidRow)
    (ident : String) (l : List NavaidObj) :
    (ident, l) ∈ buildNavaidMaps hav rows → l.Pairwise navaidOrder := by
  intro h
  unfold buildNavaidMaps at h
  rcases List.mem_map.mp h with ⟨p, -, he⟩
  have hl : List.insertionSort navaidRel p.2 = l := congrArg Prod.snd he
  have hs : List.Sorted navaidRel (List.insertionSort navaidRel p.2) :=
    List.sorted_insertionSort navaidRel p.2
  rw [hl] at hs
  exact hs.imp (fun h => navaidRel_imp_order h)

/-- An arbitrary distance function for the witness. -/
def wHav : JsNum → JsNum → JsNum := fun la lo =>
  ⟨la.num * (lo.den : Int) + lo.num * (la.den : Int), la.den * lo.den,
   Nat.mul_pos la.den_pos lo.den_pos⟩

def wNavRow1 : NavaidRow := ⟨"aaa", "BRAVO", "VOR", "116800", "10", "20"⟩

def wNavRow2 : NavaidRow := ⟨"AAA", "ALPHA", "NDB", "", "", "x"⟩

def wNavRow3 : NavaidRow := ⟨" ", "skipped", "", "", "", ""⟩

theorem buildNavaidMaps_sorted_witness :
    List.Pairwise navaidOrder
      [navaidObjOfRow wHav wNavRow1, navaidObjOfRow wHav wNavRow2] :=
  buildNavaidMaps_sorted wHav [wNavRow1, wNavRow2, wNavRow3] "AAA"
    [navaidObjOfRow wHav wNavRow1, navaidObjOfRow wHav wNavRow2] (by decide)

theorem suggestedConfig_total_witness :
    lgaSuggestedConfigFromInputs "090" (some ⟨15, 1, Nat.one_pos⟩) "VFR" ≠ "" ∧
    jfkSuggestedConfigFromInputs "090" (some ⟨15, 1, Nat.one_pos⟩) ≠ "" :=
  suggestedConfig_total "090" ⟨15, 1, Nat.one_pos⟩ "VFR" (by decide) (by decide)

end LGA
